import Mathlib

/-!
Verification of the live-monitoring engine of the `reprise` CLI
(a Bitrise command-line client, Rust).

The definitions below are a shallow embedding of the Rust source:

* `RepriseError`        — `src/error.rs`, enum `RepriseError` (external
  payloads such as `reqwest::Error` are abstracted to their message string);
* `shouldRetry`         — the transient-error classification inside
  `get_pipeline_with_retry` (`src/cli/commands/pipeline.rs:328-329`):
  `matches!(&e, RepriseError::Api { status, .. } if *status >= 500)`;
* `retryLoop` / `getPipelineWithRetry`
                        — `get_pipeline_with_retry` (`pipeline.rs:316-341`),
  instrumented with the list of backoff sleeps performed and the number of
  remote calls issued.  The remote client is abstracted as an oracle
  `call : Nat → Except RepriseError α` giving the outcome of the n-th call
  (`client.get_pipeline(..)` followed by `.into_pipeline()`).

Machine integers: the Rust `status` field is `u16` and the backoff uses
`u64`; neither overflows in the source ranges, so both are modelled as `Nat`
(`1 << (attempt - 1)` becomes `2 ^ attempt` for the pre-increment attempt
counter, exactly the values 1, 2, 4, 8, 16, … of the source comment).
-/

/-- `src/error.rs`: enum `RepriseError`.  Variants carrying external error
types (`reqwest::Error`, `serde_json::Error`, …) are modelled carrying the
message string only; the `Api` variant keeps its `status : u16` (as `Nat`)
and message. -/
inductive RepriseError where
  | Config (msg : String)
  | ConfigMissing (msg : String)
  | Api (status : Nat) (message : String)
  | Http (msg : String)
  | Json (msg : String)
  | Toml (msg : String)
  | TomlSerialize (msg : String)
  | NoDefaultApp
  | AppNotFound (msg : String)
  | BuildNotFound (msg : String)
  | LogNotAvailable (msg : String)
  | Io (msg : String)
  | InvalidArgument (msg : String)
  | Env (msg : String)
  deriving Repr, DecidableEq

/-- `pipeline.rs:328-329`: the retry classification
`matches!(&e, RepriseError::Api { status, .. } if *status >= 500)`. -/
def shouldRetry : RepriseError → Bool
  | .Api status _ => decide (500 ≤ status)
  | _ => false

/-- Result of one `get_pipeline_with_retry` invocation, instrumented with the
backoff sleeps performed (in seconds, in order) and the number of remote
calls issued. -/
structure RetryResult (α : Type) where
  result : Except RepriseError α
  sleeps : List Nat
  calls : Nat
  deriving Repr

/-- The loop of `get_pipeline_with_retry` (`pipeline.rs:322-340`), starting
from attempt counter `attempt`.  `call n` is the outcome of the call made
with attempt counter `n`.  On a transient error with `attempt < maxRetries`
the source increments `attempt` and sleeps `1 << (attempt - 1)` seconds,
i.e. `2 ^ attempt` for the pre-increment value recorded here. -/
def retryLoop (call : Nat → Except RepriseError α) (maxRetries : Nat)
    (attempt : Nat) : RetryResult α :=
  match call attempt with
  | .ok v => ⟨.ok v, [], 1⟩
  | .error e =>
    if h : shouldRetry e = true ∧ attempt < maxRetries then
      let r := retryLoop call maxRetries (attempt + 1)
      ⟨r.result, 2 ^ attempt :: r.sleeps, r.calls + 1⟩
    else
      ⟨.error e, [], 1⟩
termination_by maxRetries - attempt
decreasing_by omega

/-- `pipeline.rs:316-341`, `get_pipeline_with_retry`: the loop entered with
`attempt = 0`. -/
def getPipelineWithRetry (call : Nat → Except RepriseError α)
    (maxRetries : Nat) : RetryResult α :=
  retryLoop call maxRetries 0

/-- Worker for `rustLines`: walk the characters with the current
(reversed) partial line in `acc`; a `'\n'` ends a line (a `'\r'`
immediately before it is part of the terminator and is stripped); a final
partial line without terminator is kept, but a trailing terminator
produces no extra empty line. -/
def splitLinesAux : List Char → List Char → List String
  | [], acc => if acc.isEmpty then [] else [⟨acc.reverse⟩]
  | c :: cs, acc =>
    if c = '\n' then
      let line : List Char :=
        match acc with
        | '\r' :: acc' => acc'.reverse
        | _ => acc.reverse
      (⟨line⟩ : String) :: splitLinesAux cs []
    else
      splitLinesAux cs (c :: acc)

/-- Rust's `str::lines`, used by the tailing loops
(`log.rs:130`, `build.rs:133`, `url.rs:402`): lines are split at `'\n'`
or `"\r\n"`, and the final line terminator is optional (it yields no empty
final line). -/
def rustLines (s : String) : List String :=
  splitLinesAux s.data []

/-- `lines.get(last_line_count..).unwrap_or_default()`
(`log.rs:131`, `build.rs:134`, `url.rs:403`): Rust's slice `get` with an
open range returns `None` when the start index exceeds the length, and the
loop substitutes the empty slice. -/
def sliceFrom (lines : List String) (start : Nat) : List String :=
  if start ≤ lines.length then lines.drop start else []

/-- `src/bitrise/types.rs`: the build snapshot returned by
`client.get_build(..)` (`response.data`).  Only the raw `status : i32`
field drives the monitoring loops; the remaining display-only fields are
omitted. -/
structure Build where
  status : Int
  deriving Repr, DecidableEq

/-- `types.rs:118-120`: `Build::is_running`, `self.status == 0`. -/
def Build.is_running (b : Build) : Bool :=
  decide (b.status = 0)

/-- How one run of `follow_log` ends: the job reached a terminal status
(loop `break` with the final build), an error was propagated (`?` on the
status fetch, or the terminal "log not available" return), or the supplied
poll script ran out while the loop would still be polling. -/
inductive FollowOutcome where
  | finished (b : Build)
  | errored (e : RepriseError)
  | pending
  deriving Repr, DecidableEq

/-- `follow_log` (`log.rs:102-175`, identical in `build.rs:105-179` and
`url.rs`'s `follow_build_log`), driven by a finite script: the n-th entry
holds the outcome of that iteration's `client.get_build` status fetch and
`client.get_full_log` log fetch.  The interrupt flag is modelled as never
set (cancellation is studied separately).  Per iteration the loop
propagates a status-fetch error (`?`), silently sleeps and retries on a
log-fetch error while the build is running, returns `LogNotAvailable` on a
log-fetch error once it is not, and otherwise emits
`lines.get(last_line_count..)` and advances `last_line_count` only when
that delta is non-empty.  Returns the outcome together with the lines
emitted by each emitting iteration, in order. -/
def followLog :
    Nat → List (Except RepriseError Build × Except RepriseError String) →
      FollowOutcome × List (List String)
  | _, [] => (.pending, [])
  | cnt, (sb, sl) :: rest =>
    match sb with
    | .error e => (.errored e, [])
    | .ok build =>
      match sl with
      | .error _ =>
        if build.is_running then followLog cnt rest
        else (.errored (.LogNotAvailable "Log content is not available."), [])
      | .ok content =>
        let lines := rustLines content
        let nl := sliceFrom lines cnt
        let cnt' := if nl.isEmpty then cnt else lines.length
        if build.is_running then
          let r := followLog cnt' rest
          (r.1, nl :: r.2)
        else
          (.finished build, [nl])

/-- The pure emission skeleton of `follow_log` over successful log fetches
only: the per-iteration deltas produced from a given starting
`last_line_count`.  Related to `followLog` by `followLog_ok_running`. -/
def emitLines : Nat → List String → List (List String)
  | _, [] => []
  | cnt, s :: rest =>
    let nl := sliceFrom (rustLines s) cnt
    nl :: emitLines (if nl.isEmpty then cnt else (rustLines s).length) rest

/-- The `last_line_count` value held by `follow_log` after processing a
sequence of successful log fetches. -/
def emitCount : Nat → List String → Nat
  | cnt, [] => cnt
  | cnt, s :: rest =>
    emitCount
      (if (sliceFrom (rustLines s) cnt).isEmpty then cnt
       else (rustLines s).length) rest

/-- The status-transition display of `watch_build_with_app`
(`url.rs:545-625`) and `watch_pipeline` (`url.rs:697-`), driven by the
sequence of fetched raw statuses: `last_status` starts at the sentinel
`-1`; a poll prints a transition line iff its status differs from
`last_status`, which is then updated; the loop breaks after the first poll
whose status is not `0` (running).  Returns the statuses for which a
transition line was printed, in order. -/
def watchEmit : Int → List Int → List Int
  | _, [] => []
  | last, s :: rest =>
    let emitted := if s ≠ last then [s] else []
    if s ≠ 0 then emitted
    else emitted ++ watchEmit s rest

/-- The poll sequence actually consumed by the watch loop: it stops with
(and including) the first non-running status. -/
def truncPolls : List Int → List Int
  | [] => []
  | s :: rest => if s ≠ 0 then [s] else s :: truncPolls rest

/-- Observable events of one `wait_for_build` run (`trigger.rs:75-146`),
each paired with the time at which it occurs: the top-of-iteration read of
the interrupt flag (with the value read), the inter-poll
`thread::sleep`, and the remote `client.get_build` call (with its poll
index). -/
inductive WaitEv where
  | checkTok (cancelled : Bool)
  | sleepEv
  | callEv (i : Nat)
  deriving Repr, DecidableEq

/-- How a `wait_for_build` run ends: cancelled (`return Ok(String::new())`
at the flag check), finished (terminal build), errored (`?` on the fetch),
or out of modelling fuel while still polling. -/
inductive WaitOutcome where
  | cancelledExit
  | finished (b : Build)
  | errored (e : RepriseError)
  | fuelOut
  deriving Repr, DecidableEq

/-- `wait_for_build` (`trigger.rs:96-145`; `wait_for_pipeline`,
`pipeline.rs:368-437`, has the same shape with the fetch wrapped in
retry).  Time advances by one unit per observable event.  The Ctrl-C
request arrives at time `r`: the flag read at time `t` is `r ≤ t`.  Each
iteration at time `t` is: flag check at `t` (exit if set), sleep at
`t + 1`, remote call at `t + 2`; a fetch error propagates, a terminal
status returns the build, otherwise the next iteration starts at `t + 3`.
`fuel` bounds the number of iterations modelled. -/
def waitForBuild (r : Nat) (fetch : Nat → Except RepriseError Build) :
    Nat → Nat → Nat → WaitOutcome × List (Nat × WaitEv)
  | 0, _, _ => (.fuelOut, [])
  | fuel + 1, t, i =>
    if r ≤ t then (.cancelledExit, [(t, .checkTok true)])
    else
      match fetch i with
      | .error e =>
        (.errored e, [(t, .checkTok false), (t + 1, .sleepEv), (t + 2, .callEv i)])
      | .ok b =>
        if b.is_running then
          let rest := waitForBuild r fetch fuel (t + 3) (i + 1)
          (rest.1,
            (t, .checkTok false) :: (t + 1, .sleepEv) :: (t + 2, .callEv i) :: rest.2)
        else
          (.finished b, [(t, .checkTok false), (t + 1, .sleepEv), (t + 2, .callEv i)])

/-- Whether an event is a remote call. -/
def isCallEv : WaitEv → Bool
  | .callEv _ => true
  | _ => false

/-- The remote calls issued at or after the cancellation request time `r`
in an event trace. -/
def callsAfter (r : Nat) (tr : List (Nat × WaitEv)) : Nat :=
  (tr.filter fun p => decide (r ≤ p.1) && isCallEv p.2).length

/-- `dump_log` (`build.rs:45-70`): fetch the full log (`?` on error), fail
with `LogNotAvailable` when the content is empty, otherwise return the
content (rendering is downstream). -/
def dumpLog : Except RepriseError String → Except RepriseError String
  | .error e => .error e
  | .ok content =>
    if content.isEmpty then
      .error (.LogNotAvailable "Log content is empty or not yet available.")
    else
      .ok content

/-- The non-follow path of the `log` command (`log.rs:34-50`): fetch the
full log (`?` on error), fail with `LogNotAvailable` when the content is
empty, otherwise apply `--tail` (`lines[len.saturating_sub(n)..]` joined
with `"\n"`) when given. -/
def logCommand (fetchRes : Except RepriseError String) (tailN : Option Nat) :
    Except RepriseError String :=
  match fetchRes with
  | .error e => .error e
  | .ok content =>
    if content.isEmpty then
      .error (.LogNotAvailable "Log content is empty or not yet available.")
    else
      .ok (match tailN with
        | some n =>
          let lines := rustLines content
          String.intercalate "\n" (lines.drop (lines.length - n))
        | none => content)

lemma retryLoop_ok {call : Nat → Except RepriseError α} {maxRetries attempt : Nat}
    {v : α} (h : call attempt = .ok v) :
    retryLoop call maxRetries attempt = ⟨.ok v, [], 1⟩ := by
  rw [retryLoop, h]

lemma retryLoop_error_stop {call : Nat → Except RepriseError α}
    {maxRetries attempt : Nat} {e : RepriseError} (h : call attempt = .error e)
    (hstop : ¬(shouldRetry e = true ∧ attempt < maxRetries)) :
    retryLoop call maxRetries attempt = ⟨.error e, [], 1⟩ := by
  rw [retryLoop, h]
  simp only [hstop, dite_false]

lemma retryLoop_error_retry {call : Nat → Except RepriseError α}
    {maxRetries attempt : Nat} {e : RepriseError} (h : call attempt = .error e)
    (htr : shouldRetry e = true) (hlt : attempt < maxRetries) :
    retryLoop call maxRetries attempt =
      ⟨(retryLoop call maxRetries (attempt + 1)).result,
        2 ^ attempt :: (retryLoop call maxRetries (attempt + 1)).sleeps,
        (retryLoop call maxRetries (attempt + 1)).calls + 1⟩ := by
  rw [retryLoop, h]
  simp only [htr, hlt, and_self, dite_true]

/-- Skipping over a block of `f` consecutive transient failures starting at
attempt `a`: the loop performs the `f` backoff sleeps `2^a, …, 2^(a+f-1)`
and then behaves as the loop restarted at attempt `a + f`. -/
lemma retryLoop_skip (call : Nat → Except RepriseError α) (maxRetries : Nat) :
    ∀ f a, a + f ≤ maxRetries →
    (∀ i, a ≤ i → i < a + f → ∃ s msg, call i = .error (.Api s msg) ∧ 500 ≤ s) →
    retryLoop call maxRetries a =
      ⟨(retryLoop call maxRetries (a + f)).result,
        ((List.range f).map fun i => 2 ^ (a + i)) ++
          (retryLoop call maxRetries (a + f)).sleeps,
        f + (retryLoop call maxRetries (a + f)).calls⟩ := by
  intro f
  induction f with
  | zero =>
    intro a _ _
    simp
  | succ f ih =>
    intro a hle htr
    obtain ⟨s, msg, hc, hs⟩ := htr a (le_refl a) (by omega)
    have hstep := @retryLoop_error_retry _ call maxRetries a _ hc
      (by simp [shouldRetry, hs]) (by omega)
    have hrec := ih (a + 1) (by omega) (fun i h1 h2 => htr i (by omega) (by omega))
    rw [hstep, hrec]
    dsimp only
    have hr : a + 1 + f = a + (f + 1) := by omega
    rw [hr]
    have hlist : 2 ^ a :: ((List.range f).map fun i => 2 ^ (a + 1 + i)) =
        (List.range (f + 1)).map fun i => 2 ^ (a + i) := by
      rw [List.range_succ_eq_map]
      simp only [List.map_cons, List.map_map, Nat.add_zero]
      congr 1
      apply List.map_congr_left
      intro i _
      simp only [Function.comp_apply]
      congr 1
      omega
    rw [← List.cons_append, hlist]
    congr 1
    omega

/-- C1.  Retry backoff sequence of `get_pipeline_with_retry`
(`pipeline.rs:316-341`): if the first `f ≤ maxRetries` calls fail with a
transient (HTTP ≥ 500 `Api`) error, then (a) if call `f` succeeds with `v`,
the wrapper returns `v` after sleeping exactly `2^0, 2^1, …, 2^(f-1)`
seconds, in order (so for `f = 4`: 1, 2, 4, 8 before the 5th, successful,
attempt), issuing `f + 1` calls; and (b) if `f = maxRetries` and call `f`
also fails, the retry budget is exhausted and that last error is propagated
after the same sleeps. -/
theorem retry_backoff_sequence (call : Nat → Except RepriseError Nat)
    (maxRetries f : Nat) (hf : f ≤ maxRetries)
    (htr : ∀ i, i < f → ∃ s msg, call i = .error (.Api s msg) ∧ 500 ≤ s) :
    (∀ v, call f = .ok v →
      getPipelineWithRetry call maxRetries =
        ⟨.ok v, (List.range f).map fun i => 2 ^ i, f + 1⟩) ∧
    (∀ e, f = maxRetries → call f = .error e →
      getPipelineWithRetry call maxRetries =
        ⟨.error e, (List.range f).map fun i => 2 ^ i, f + 1⟩) := by
  have hskip := retryLoop_skip call maxRetries f 0 (by omega)
    (fun i h1 h2 => htr i (by omega))
  simp only [Nat.zero_add] at hskip
  constructor
  · intro v hv
    rw [getPipelineWithRetry, hskip, retryLoop_ok hv]
    simp
  · intro e hfm he
    have hstop : ¬(shouldRetry e = true ∧ f < maxRetries) := by
      rintro ⟨-, hlt⟩; omega
    rw [getPipelineWithRetry, hskip, retryLoop_error_stop he hstop]
    simp

/-- Witness for `retry_backoff_sequence`: a concrete oracle failing with
HTTP 503 on calls 0–3 and succeeding on call 4, with budget 5: the wrapper
returns the success value after sleeping exactly 1, 2, 4, 8. -/
theorem retry_backoff_sequence_witness :
    getPipelineWithRetry
      (fun i => if i < 4 then .error (.Api 503 "oops") else .ok 42) 5 =
      ⟨.ok 42, [1, 2, 4, 8], 5⟩ := by
  have h := (retry_backoff_sequence
    (fun i => if i < 4 then .error (.Api 503 "oops") else .ok 42) 5 4
    (by omega)
    (fun i hi => ⟨503, "oops", by simp [hi], by omega⟩)).1 42 (by simp)
  simpa using h

/-- C2.  Permanent errors skip retry (`pipeline.rs:323-340`): if the very
first call fails with an error classified as permanent
(`shouldRetry e = false`), `get_pipeline_with_retry` propagates it with no
backoff sleep and exactly one call issued, for every retry budget. -/
theorem permanent_error_no_retry (call : Nat → Except RepriseError Nat)
    (maxRetries : Nat) (e : RepriseError) (h0 : call 0 = .error e)
    (hperm : shouldRetry e = false) :
    getPipelineWithRetry call maxRetries = ⟨.error e, [], 1⟩ := by
  rw [getPipelineWithRetry]
  exact retryLoop_error_stop h0 (by simp [hperm])

/-- Witness for `permanent_error_no_retry`: a 404 `Api` error on the first
call propagates immediately even with budget 5. -/
theorem permanent_error_no_retry_witness :
    getPipelineWithRetry
      (fun _ => (.error (.Api 404 "nope") : Except RepriseError Nat)) 5 =
      ⟨.error (.Api 404 "nope"), [], 1⟩ :=
  permanent_error_no_retry _ 5 (.Api 404 "nope") rfl rfl

/-- C10.  The transient classification of `get_pipeline_with_retry` is
exactly "`Api` variant with HTTP status ≥ 500" (`pipeline.rs:326-337`,
`error.rs:17-27`): every other variant — including `Http` transport
failures and `Json` parse failures — is permanent, and a first call
failing with such an error is propagated with zero sleeps and one call. -/
theorem transient_classification (e : RepriseError) :
    (shouldRetry e = true ↔ ∃ s msg, e = .Api s msg ∧ 500 ≤ s) ∧
    (shouldRetry e = false →
      ∀ (maxRetries : Nat) (call : Nat → Except RepriseError Nat),
        call 0 = .error e →
        getPipelineWithRetry call maxRetries = ⟨.error e, [], 1⟩) := by
  constructor
  · constructor
    · intro h
      cases e with
      | Api s msg =>
        refine ⟨s, msg, rfl, ?_⟩
        simpa [shouldRetry] using h
      | _ => simp [shouldRetry] at h
    · rintro ⟨s, msg, rfl, hs⟩
      simp [shouldRetry, hs]
  · intro hperm maxRetries call h0
    exact permanent_error_no_retry call maxRetries e h0 hperm

/-- Witness for `transient_classification` at the `Http` (transport
timeout) variant: classified permanent and propagated without retry. -/
theorem transient_classification_witness :
    shouldRetry (.Http "timeout") = false ∧
    getPipelineWithRetry
      (fun _ => (.error (.Http "timeout") : Except RepriseError Nat)) 5 =
      ⟨.error (.Http "timeout"), [], 1⟩ :=
  ⟨rfl, (transient_classification (.Http "timeout")).2 rfl 5 _ rfl⟩

/-- C3.  Shrink tolerance of the tailing loops (`log.rs:129-131`,
`build.rs:132-134`): when the freshly fetched log has fewer lines than the
recorded emitted-line count, `lines.get(last_line_count..)` yields `None`
and `unwrap_or_default` substitutes the empty slice, so the delta is
empty; the iteration emits nothing, leaves the count unchanged and the
loop continues normally (no underflow, no panic). -/
theorem shrink_empty_delta (log : String) (cnt : Nat)
    (h : (rustLines log).length < cnt) :
    sliceFrom (rustLines log) cnt = [] ∧
    ∀ (b : Build)
      (rest : List (Except RepriseError Build × Except RepriseError String)),
      b.status = 0 →
      followLog cnt ((.ok b, .ok log) :: rest) =
        ((followLog cnt rest).1, [] :: (followLog cnt rest).2) := by
  have hs : sliceFrom (rustLines log) cnt = [] := by
    rw [sliceFrom, if_neg (by omega)]
  refine ⟨hs, ?_⟩
  intro b rest hb
  simp [followLog, Build.is_running, hb, hs]

/-- Witness for `shrink_empty_delta`, Scenario C: the log shrank from
`"a\nb\nc\n"` (3 emitted lines) to `"a\n"` — the second poll emits zero
lines. -/
theorem shrink_empty_delta_witness :
    sliceFrom (rustLines "a\n") 3 = [] ∧
    followLog 3 [((.ok ⟨0⟩ : Except RepriseError Build), .ok "a\n")] =
      (.pending, [[]]) := by
  have h := shrink_empty_delta "a\n" 3 (by decide)
  exact ⟨h.1, (h.2 ⟨0⟩ [] rfl).trans rfl⟩

/-- C6.  Log-fetch failure handling in the tailing loops
(`log.rs:115-127`, `build.rs:118-130`): when the full-log fetch fails
while the job is still running, the iteration emits nothing, sleeps and
retries from the top; when it fails while the job is no longer running,
the loop terminates propagating the "log not available" error. -/
theorem log_fetch_failure_branches (cnt : Nat) (b : Build) (e : RepriseError)
    (rest : List (Except RepriseError Build × Except RepriseError String)) :
    (b.status = 0 →
      followLog cnt ((.ok b, .error e) :: rest) = followLog cnt rest) ∧
    (b.status ≠ 0 →
      followLog cnt ((.ok b, .error e) :: rest) =
        (.errored (.LogNotAvailable "Log content is not available."), [])) := by
  constructor
  · intro hb
    simp [followLog, Build.is_running, hb]
  · intro hb
    simp [followLog, Build.is_running, hb]

/-- Witness for `log_fetch_failure_branches`: a failed log fetch with a
running build continues the loop silently; with a terminal build it
returns the `LogNotAvailable` error. -/
theorem log_fetch_failure_branches_witness :
    followLog 0 [((.ok ⟨0⟩ : Except RepriseError Build), .error (.Api 404 "x"))] =
      (.pending, []) ∧
    followLog 0 [((.ok ⟨1⟩ : Except RepriseError Build), .error (.Api 404 "x"))] =
      (.errored (.LogNotAvailable "Log content is not available."), []) := by
  constructor
  · exact ((log_fetch_failure_branches 0 ⟨0⟩ (.Api 404 "x") []).1 rfl).trans rfl
  · exact (log_fetch_failure_branches 0 ⟨1⟩ (.Api 404 "x") []).2 (by decide)

/-- Counterexample to C5.  The per-iteration status fetch of `follow_log`
is written `client.get_build(app_slug, build_slug)?` (`log.rs:112`,
`build.rs:115`, `url.rs:384`): its failure is NOT tolerated silently.  In
this two-iteration script the status fetch of the first iteration fails
with HTTP 500; the claim predicts the loop continues to the second
iteration (which would emit `"a"`), but the code terminates at once,
emitting nothing and surfacing the error to the caller. -/
theorem status_fetch_error_surfaces :
    followLog 0
      [((.error (.Api 500 "boom") : Except RepriseError Build), .ok "a\n"),
       ((.ok ⟨0⟩ : Except RepriseError Build), .ok "a\nb\n")] =
      (.errored (.Api 500 "boom"), []) := by decide

/-- C5 (amended).  The per-iteration status fetch of the tailing loop is
indeed not wrapped in retry, but a failure is propagated immediately by
the `?` operator (`log.rs:112`, `url.rs:384`): the loop terminates with
that error and emits nothing further, for every state of the loop and
every remainder of the script. -/
theorem status_fetch_error_propagates (cnt : Nat) (e : RepriseError)
    (sl : Except RepriseError String)
    (rest : List (Except RepriseError Build × Except RepriseError String)) :
    followLog cnt ((.error e, sl) :: rest) = (.errored e, []) := by
  simp [followLog]

/-- C9.  The non-follow `log` command (`log.rs:35-41`) and the
`build --logs` path (`build.rs:51-57`): a successfully fetched but empty
log is rejected with the `LogNotAvailable` error ("Log content is empty
or not yet available."), for every `--tail` argument, instead of printing
nothing — an empty log is treated like a missing one. -/
theorem empty_log_not_available (tailN : Option Nat) :
    logCommand (.ok "") tailN =
      .error (.LogNotAvailable "Log content is empty or not yet available.") ∧
    dumpLog (.ok "") =
      .error (.LogNotAvailable "Log content is empty or not yet available.") :=
  ⟨rfl, rfl⟩


lemma followLog_ok_running (b : Build) (hb : b.status = 0) :
    ∀ (texts : List String) (cnt : Nat),
      followLog cnt (texts.map fun s => (.ok b, .ok s)) =
        (.pending, emitLines cnt texts) := by
  intro texts
  induction texts with
  | nil => intro cnt; simp [followLog, emitLines]
  | cons s rest ih =>
    intro cnt
    simp [followLog, emitLines, Build.is_running, hb, ih]

lemma emitStep_count {ls : List String} {cnt : Nat} (hc : cnt ≤ ls.length) :
    (if (sliceFrom ls cnt).isEmpty then cnt else ls.length) = ls.length := by
  by_cases h : (sliceFrom ls cnt).isEmpty
  · rw [if_pos h]
    rw [sliceFrom, if_pos hc, List.isEmpty_iff, List.drop_eq_nil_iff] at h
    omega
  · rw [if_neg h]

lemma emitLines_append : ∀ (xs ys : List String) (cnt : Nat),
    emitLines cnt (xs ++ ys) =
      emitLines cnt xs ++ emitLines (emitCount cnt xs) ys := by
  intro xs
  induction xs with
  | nil => intro ys cnt; simp [emitLines, emitCount]
  | cons s rest ih =>
    intro ys cnt
    simp [emitLines, emitCount, ih]

lemma prefix_drop_append {p q : List String} (h : p <+: q) {cnt : Nat}
    (hc : cnt ≤ p.length) :
    p.drop cnt ++ q.drop p.length = q.drop cnt := by
  obtain ⟨r, rfl⟩ := h
  rw [List.drop_append_eq_append_drop, List.drop_append_eq_append_drop,
    List.drop_length, Nat.sub_self, Nat.sub_eq_zero_of_le hc]
  simp

lemma emitLines_chain_aux :
    ∀ (rest : List String) (s : String) (cnt : Nat),
      List.Chain' (fun u t => rustLines u <+: rustLines t) (s :: rest) →
      cnt ≤ (rustLines s).length →
      ((emitLines cnt (s :: rest)).flatten =
          (rustLines (((s :: rest).getLast?).getD "")).drop cnt) ∧
      emitCount cnt (s :: rest) =
          (rustLines (((s :: rest).getLast?).getD "")).length ∧
      rustLines s <+: rustLines (((s :: rest).getLast?).getD "") := by
  intro rest
  induction rest with
  | nil =>
    intro s cnt _ hc
    refine ⟨?_, ?_, List.prefix_refl _⟩
    · simp [emitLines, sliceFrom, hc]
    · have h1 : emitCount cnt [s] =
          (if (sliceFrom (rustLines s) cnt).isEmpty then cnt
           else (rustLines s).length) := rfl
      rw [h1, emitStep_count hc]
      simp
  | cons t rest ih =>
    intro s cnt hchain hc
    obtain ⟨hst, hchain'⟩ := List.chain'_cons.mp hchain
    have hlen : (rustLines s).length ≤ (rustLines t).length := hst.length_le
    obtain ⟨ihjoin, ihcount, ihpre⟩ := ih t ((rustLines s).length) hchain' hlen
    have hL : (s :: t :: rest).getLast? = (t :: rest).getLast? :=
      List.getLast?_cons_cons
    have hpre : rustLines s <+: rustLines (((t :: rest).getLast?).getD "") :=
      hst.trans ihpre
    have h2 : emitLines cnt (s :: t :: rest) =
        sliceFrom (rustLines s) cnt ::
          emitLines (if (sliceFrom (rustLines s) cnt).isEmpty then cnt
            else (rustLines s).length) (t :: rest) := rfl
    have h3 : emitCount cnt (s :: t :: rest) =
        emitCount (if (sliceFrom (rustLines s) cnt).isEmpty then cnt
          else (rustLines s).length) (t :: rest) := rfl
    refine ⟨?_, ?_, by rw [hL]; exact hpre⟩
    · rw [h2, emitStep_count hc, List.flatten_cons, ihjoin, sliceFrom,
        if_pos hc, hL]
      exact prefix_drop_append hpre hc
    · rw [h3, emitStep_count hc, ihcount, hL]

/-- C4 (amended).  Monotonic tailing of `follow_log`
(`log.rs:102-175`): for any sequence of successful log fetches (status
always running) whose LINE LISTS are non-decreasing (each fetch's
`lines()` extends the previous one's as a list prefix), the emitted
deltas concatenated in order equal exactly the lines of the final log —
no line duplicated, none lost; and if the sequence is followed by a
shrink (a fetch with fewer lines than already emitted), the shrink
iteration emits nothing and the concatenation still equals the pre-shrink
content.  (The claim's text-level prefix condition is not enough: see
`text_prefix_tailing_counterexample`.) -/
theorem follow_monotonic_tailing (texts : List String)
    (hchain : List.Chain' (fun u t => rustLines u <+: rustLines t) texts) :
    ((followLog 0 (texts.map fun s =>
        ((.ok ⟨0⟩ : Except RepriseError Build), .ok s))).2.flatten =
      rustLines ((texts.getLast?).getD "")) ∧
    (∀ d : String,
      (rustLines d).length < (rustLines ((texts.getLast?).getD "")).length →
      ((followLog 0 ((texts ++ [d]).map fun s =>
          ((.ok ⟨0⟩ : Except RepriseError Build), .ok s))).2.flatten =
        rustLines ((texts.getLast?).getD "")) ∧
      ((followLog 0 ((texts ++ [d]).map fun s =>
          ((.ok ⟨0⟩ : Except RepriseError Build), .ok s))).2.getLast? =
        some [])) := by
  cases texts with
  | nil =>
    constructor
    · rfl
    · intro d hd
      rw [show rustLines (([] : List String).getLast?.getD "") = [] from rfl]
        at hd
      exact absurd hd (Nat.not_lt_zero _)
  | cons s rest =>
    obtain ⟨hjoin, hcount, -⟩ :=
      emitLines_chain_aux rest s 0 hchain (Nat.zero_le _)
    constructor
    · rw [followLog_ok_running ⟨0⟩ rfl]
      simpa using hjoin
    · intro d hd
      rw [followLog_ok_running ⟨0⟩ rfl, emitLines_append, hcount]
      have hslice : sliceFrom (rustLines d)
          (rustLines (((s :: rest).getLast?).getD "")).length = [] := by
        rw [sliceFrom, if_neg (by omega)]
      have hl : emitLines
          (rustLines (((s :: rest).getLast?).getD "")).length [d] = [[]] := by
        simp [emitLines, hslice]
      rw [hl]
      constructor
      · rw [List.flatten_append]
        simpa using hjoin
      · exact List.getLast?_concat _

/-- Witness for `follow_monotonic_tailing`, Scenario B: fetches
`"line1\nline2\n"` then `"line1\nline2\nline3\n"` — the emitted deltas
concatenate to exactly `["line1", "line2", "line3"]`. -/
theorem follow_monotonic_tailing_witness :
    (followLog 0 (["line1\nline2\n", "line1\nline2\nline3\n"].map fun s =>
        ((.ok ⟨0⟩ : Except RepriseError Build), .ok s))).2.flatten =
      ["line1", "line2", "line3"] := by
  have h := (follow_monotonic_tailing
    ["line1\nline2\n", "line1\nline2\nline3\n"]
    (List.chain'_cons.mpr ⟨⟨["line3"], by decide⟩, List.chain'_singleton _⟩)).1
  rw [h]
  decide

/-- Counterexample to C4 as stated.  The claim's hypothesis is a
TEXT-level prefix extension; but when a fetch catches a partial last line
(`"a"`, later extended to `"ab"`), the loop emits `"a"`, records one
emitted line, and never re-emits the grown line: the concatenated output
`["a"]` differs from the final log's lines `["ab"]`, so content is lost
even though the texts are non-decreasing. -/
theorem text_prefix_tailing_counterexample :
    "a".data <+: "ab".data ∧
    (followLog 0 (["a", "ab"].map fun s =>
        ((.ok ⟨0⟩ : Except RepriseError Build), .ok s))).2.flatten ≠
      rustLines "ab" := by
  constructor
  · exact ⟨['b'], rfl⟩
  · decide

lemma destutter_prime_head_cons (R : Int → Int → Prop) [DecidableRel R] :
    ∀ (l : List Int) (a : Int),
      List.destutter' R a l = a :: (List.destutter' R a l).tail := by
  intro l
  induction l with
  | nil => intro a; rfl
  | cons b l ih =>
    intro a
    rw [List.destutter'_cons]
    by_cases h : R a b
    · rw [if_pos h]; rfl
    · rw [if_neg h, ih a]; rfl

lemma watchEmit_destutter : ∀ (polls : List Int) (last : Int),
    watchEmit last polls =
      (List.destutter' (· ≠ ·) last (truncPolls polls)).tail := by
  intro polls
  induction polls with
  | nil => intro last; rfl
  | cons s rest ih =>
    intro last
    rw [watchEmit, truncPolls]
    by_cases h0 : s ≠ 0 <;> by_cases hl : s ≠ last
    · rw [if_pos h0, if_pos hl, if_pos h0, List.destutter'_cons,
        if_pos (Ne.symm hl)]
      rfl
    · rw [if_pos h0, if_neg hl, if_pos h0, List.destutter'_cons,
        if_neg (fun hne => hl (Ne.symm hne))]
      rfl
    · rw [if_neg h0, if_pos hl, if_neg h0, List.destutter'_cons,
        if_pos (Ne.symm hl), List.tail_cons,
        destutter_prime_head_cons (· ≠ ·) (truncPolls rest) s, ih s]
      rfl
    · push_neg at hl
      rw [if_neg h0, if_neg (fun h => h hl), if_neg h0, List.destutter'_cons,
        if_neg (fun h => h hl.symm), hl, ih last]
      rfl

/-- C8 (amended).  Transition display of the watch loops
(`url.rs:545-625` `watch_build_with_app`, `url.rs:697-` `watch_pipeline`):
the statuses printed are exactly the consecutive-duplicate-collapsed
truncated poll sequence relative to the initial sentinel `last_status =
-1` (so an unchanged status never produces a second consecutive
transition line, and within any run of equal consecutive statuses only
the first poll prints); consecutive printed statuses always differ; and
the FIRST snapshot produces a transition line provided its raw status
differs from the sentinel `-1` (see
`watch_first_snapshot_counterexample` for the `-1` exception the claim
misses). -/
theorem watch_transition_characterization (polls : List Int) :
    (watchEmit (-1) polls =
      (List.destutter' (· ≠ ·) (-1) (truncPolls polls)).tail) ∧
    List.Chain' (· ≠ ·) (watchEmit (-1) polls) ∧
    (∀ s rest, polls = s :: rest → s ≠ -1 →
      (watchEmit (-1) polls).head? = some s) := by
  refine ⟨watchEmit_destutter polls (-1), ?_, ?_⟩
  · rw [watchEmit_destutter polls (-1)]
    exact (List.destutter'_is_chain' _ _ _).tail
  · rintro s rest rfl hs
    rw [watchEmit]
    by_cases h0 : s ≠ 0
    · rw [if_pos hs, if_pos h0]
      rfl
    · rw [if_pos hs, if_neg h0]
      rfl

/-- Witness for `watch_transition_characterization`, Scenario A: polls
Running, Running, Success (`0, 0, 1`) print exactly two transition lines,
`0` then `1`, and the first snapshot prints. -/
theorem watch_transition_characterization_witness :
    watchEmit (-1) [0, 0, 1] = [0, 1] ∧
    (watchEmit (-1) [0, 0, 1]).head? = some 0 := by
  have h := watch_transition_characterization [0, 0, 1]
  exact ⟨h.1.trans (by decide), h.2.2 0 [0, 1] rfl (by decide)⟩

/-- Counterexample to C8 as stated.  `last_status` is initialised to the
sentinel `-1` (`url.rs:545`, `url.rs:723`) and the transition line is
printed only when `build.status != last_status`: a first snapshot whose
raw status is `-1` prints NO transition output, contradicting "the first
snapshot always produces one". -/
theorem watch_first_snapshot_counterexample :
    watchEmit (-1) [-1] = [] := rfl

lemma callsAfter_nil (r : Nat) : callsAfter r [] = 0 := rfl

lemma callsAfter_cons (r : Nat) (p : Nat × WaitEv) (l : List (Nat × WaitEv)) :
    callsAfter r (p :: l) =
      (if (decide (r ≤ p.1) && isCallEv p.2) = true then 1 else 0) +
        callsAfter r l := by
  rw [callsAfter, callsAfter, List.filter_cons]
  by_cases h : (decide (r ≤ p.1) && isCallEv p.2) = true
  · rw [if_pos h, if_pos h, List.length_cons]
    omega
  · rw [if_neg h, if_neg h]
    omega

lemma callsAfter_of_cancelled (r : Nat)
    (fetch : Nat → Except RepriseError Build) :
    ∀ (fuel t i : Nat), r ≤ t →
      callsAfter r (waitForBuild r fetch fuel t i).2 = 0 := by
  intro fuel t i h
  cases fuel with
  | zero => rfl
  | succ fuel =>
    rw [waitForBuild, if_pos h]
    simp [callsAfter, isCallEv]

/-- C7 (amended).  Cancellation in `wait_for_build` (`trigger.rs:96-145`;
`wait_for_pipeline` has the same shape): the interrupt flag is read ONLY
at the top-of-iteration check, which precedes the inter-poll sleep and
the remote call of the same iteration.  Hence (a) an iteration whose top
check already sees the flag exits at once with no further sleep or call;
and (b) in every run, at most one remote call is issued at or after the
request time — a request arriving after a check (during the sleep or
during the call) lets exactly that iteration's call complete and is
observed at the next top-of-iteration check.  The claim's stronger
reading — a request during the inter-poll sleep prevents the following
call — is false: see `cancellation_during_sleep_counterexample`. -/
theorem cancellation_at_top_check (r : Nat)
    (fetch : Nat → Except RepriseError Build) :
    (∀ fuel t i, r ≤ t →
      waitForBuild r fetch (fuel + 1) t i =
        (.cancelledExit, [(t, .checkTok true)])) ∧
    (∀ fuel t i, callsAfter r (waitForBuild r fetch fuel t i).2 ≤ 1) := by
  constructor
  · intro fuel t i h
    rw [waitForBuild, if_pos h]
  · intro fuel
    induction fuel with
    | zero => intro t i; exact Nat.le_succ 0
    | succ fuel ih =>
      intro t i
      by_cases hrt : r ≤ t
      · rw [waitForBuild, if_pos hrt]
        simp [callsAfter, isCallEv]
      · rw [waitForBuild, if_neg hrt]
        cases hfe : fetch i with
        | error e =>
          dsimp only
          simp [callsAfter_cons, callsAfter_nil, isCallEv]
          first
          | omega
          | (split_ifs <;> omega)
        | ok b =>
          dsimp only
          by_cases hbr : b.is_running
          · rw [if_pos hbr]
            by_cases h2 : r ≤ t + 2
            · rw [callsAfter_cons, callsAfter_cons, callsAfter_cons,
                callsAfter_of_cancelled r fetch fuel (t + 3) (i + 1)
                  (by omega)]
              simp [isCallEv, h2]
            · rw [callsAfter_cons, callsAfter_cons, callsAfter_cons]
              simpa [isCallEv, h2] using ih (t + 3) (i + 1)
          · rw [if_neg hbr]
            simp [callsAfter_cons, callsAfter_nil, isCallEv]
            first
            | omega
            | (split_ifs <;> omega)

/-- Counterexample to C7 as stated.  Trace of `wait_for_build` with the
cancellation request arriving at time 2 — i.e. during the inter-poll
sleep, which occupies the interval between event 1 (the sleep, time 1)
and event 2 (the remote call, time 2) — with an always-running build and
fuel for two iterations.  The claim predicts the loop "exits before
issuing the next remote call"; the code has no flag check between the
sleep and the call, so the call at time 2 is still issued (it appears in
the trace at or after the request time), and the loop only exits at the
next top-of-iteration check at time 3. -/
theorem cancellation_during_sleep_counterexample :
    waitForBuild 2 (fun _ => .ok ⟨0⟩) 2 0 0 =
      (.cancelledExit,
        [(0, .checkTok false), (1, .sleepEv), (2, .callEv 0),
         (3, .checkTok true)]) ∧
    callsAfter 2 (waitForBuild 2 (fun _ => .ok ⟨0⟩) 2 0 0).2 = 1 := by
  constructor <;> decide

/-- Witness for `cancellation_at_top_check`: with the request already
visible at time 0, the loop exits at its first check issuing no call;
and a run with request time 2 issues at most one call after the
request. -/
theorem cancellation_at_top_check_witness :
    waitForBuild 0 (fun _ => .ok ⟨0⟩) 1 0 0 =
      (.cancelledExit, [(0, .checkTok true)]) ∧
    callsAfter 2 (waitForBuild 2 (fun _ => .ok ⟨0⟩) 3 0 0).2 ≤ 1 := by
  refine ⟨(cancellation_at_top_check 0 (fun _ => .ok ⟨0⟩)).1 0 0 0
    (Nat.le_refl 0), ?_⟩
  exact (cancellation_at_top_check 2 (fun _ => .ok ⟨0⟩)).2 3 0 0
